import Mathlib

/-!
Verification of the item-catalog service (mercari-build-training): a shallow
embedding of the storage/identity layer of the two server variants
(`go/app/main.go`, SQLite-backed, and the flat-file JSON variant), together
with theorems settling the specified properties.
-/

namespace Catalog

/-! ## SHA-256 (embedding of Go crypto/sha256 + encoding/hex as used by hashString) -/

/-- Truncate to a 32-bit word. -/
def w32 (n : Nat) : Nat := n % 4294967296

/-- Rotate a 32-bit word right by `n` bits (input assumed < 2^32). -/
def rotr32 (n w : Nat) : Nat := (w >>> n) + ((w % 2 ^ n) <<< (32 - n))

def smallSigma0 (x : Nat) : Nat := (rotr32 7 x) ^^^ (rotr32 18 x) ^^^ (x >>> 3)

def smallSigma1 (x : Nat) : Nat := (rotr32 17 x) ^^^ (rotr32 19 x) ^^^ (x >>> 10)

def bigSigma0 (x : Nat) : Nat := (rotr32 2 x) ^^^ (rotr32 13 x) ^^^ (rotr32 22 x)

def bigSigma1 (x : Nat) : Nat := (rotr32 6 x) ^^^ (rotr32 11 x) ^^^ (rotr32 25 x)

def chFun (e f g : Nat) : Nat := (e &&& f) ^^^ ((4294967295 ^^^ e) &&& g)

def majFun (a b c : Nat) : Nat := (a &&& b) ^^^ (a &&& c) ^^^ (b &&& c)

/-- UTF-8 encoding of one character, as Go's string-to-byte conversion does. -/
def utf8EncodeChar (c : Char) : List Nat :=
  let n := c.toNat
  if n < 128 then [n]
  else if n < 2048 then [192 + n / 64, 128 + n % 64]
  else if n < 65536 then [224 + n / 4096, 128 + n / 64 % 64, 128 + n % 64]
  else [240 + n / 262144, 128 + n / 4096 % 64, 128 + n / 64 % 64, 128 + n % 64]

/-- The bytes of a string (Go `[]byte(s)`). -/
def strBytes (s : String) : List Nat := s.data.flatMap utf8EncodeChar

/-- SHA-256 message padding: append 0x80, zeros to 56 mod 64, then the
64-bit big-endian bit length. -/
def sha256Pad (m : List Nat) : List Nat :=
  let L := m.length
  let bitLen := 8 * L
  m ++ 128 :: List.replicate ((119 - L % 64) % 64) 0 ++
    [bitLen / 2 ^ 56 % 256, bitLen / 2 ^ 48 % 256, bitLen / 2 ^ 40 % 256,
     bitLen / 2 ^ 32 % 256, bitLen / 2 ^ 24 % 256, bitLen / 2 ^ 16 % 256,
     bitLen / 2 ^ 8 % 256, bitLen % 256]

/-- Split a byte list into 64-byte chunks (fuel-indexed structural recursion;
the fuel bounds the number of chunks). -/
def chunks64Aux : Nat → List Nat → List (List Nat)
  | 0, _ => []
  | _, [] => []
  | fuel + 1, l => l.take 64 :: chunks64Aux fuel (l.drop 64)

/-- Split a byte list into 64-byte chunks. -/
def chunks64 (l : List Nat) : List (List Nat) := chunks64Aux l.length l

/-- Combine bytes into big-endian 32-bit words. -/
def bytesToWords : List Nat → List Nat
  | a :: b :: c :: d :: rest => (((a * 256 + b) * 256 + c) * 256 + d) :: bytesToWords rest
  | _ => []

/-- The 64 SHA-256 round constants (FIPS 180-4), in decimal. -/
def kConsts : List Nat :=
  [1116352408, 1899447441, 3049323471, 3921009573,
   961987163, 1508970993, 2453635748, 2870763221,
   3624381080, 310598401, 607225278, 1426881987,
   1925078388, 2162078206, 2614888103, 3248222580,
   3835390401, 4022224774, 264347078, 604807628,
   770255983, 1249150122, 1555081692, 1996064986,
   2554220882, 2821834349, 2952996808, 3210313671,
   3336571891, 3584528711, 113926993, 338241895,
   666307205, 773529912, 1294757372, 1396182291,
   1695183700, 1986661051, 2177026350, 2456956037,
   2730485921, 2820302411, 3259730800, 3345764771,
   3516065817, 3600352804, 4094571909, 275423344,
   430227734, 506948616, 659060556, 883997877,
   958139571, 1322822218, 1537002063, 1747873779,
   1955562222, 2024104815, 2227730452, 2361852424,
   2428436474, 2756734187, 3204031479, 3329325298]

/-- Extend the 16 schedule words to 64. -/
def schedule (w : Array Nat) : Array Nat :=
  (List.range 48).foldl
    (fun w i =>
      w.push (w32 (smallSigma1 (w.getD (i + 14) 0) + w.getD (i + 9) 0 +
        smallSigma0 (w.getD (i + 1) 0) + w.getD i 0)))
    w

/-- The eight 32-bit working variables of SHA-256. -/
structure Hash8 where
  a : Nat
  b : Nat
  c : Nat
  d : Nat
  e : Nat
  f : Nat
  g : Nat
  h : Nat
  deriving Repr, DecidableEq

/-- One compression round; `kw` is the round constant plus schedule word. -/
def sha256Round (s : Hash8) (kw : Nat) : Hash8 :=
  let t1 := w32 (s.h + bigSigma1 s.e + chFun s.e s.f s.g + kw)
  let t2 := w32 (bigSigma0 s.a + majFun s.a s.b s.c)
  ⟨w32 (t1 + t2), s.a, s.b, s.c, w32 (s.d + t1), s.e, s.f, s.g⟩

/-- Compress one 64-byte chunk into the running hash state. -/
def compressChunk (s : Hash8) (chunk : List Nat) : Hash8 :=
  let ws := (schedule (Array.mk (bytesToWords chunk))).toList
  let kws := List.zipWith (fun k w => w32 (k + w)) kConsts ws
  let t := kws.foldl sha256Round s
  ⟨w32 (s.a + t.a), w32 (s.b + t.b), w32 (s.c + t.c), w32 (s.d + t.d),
   w32 (s.e + t.e), w32 (s.f + t.f), w32 (s.g + t.g), w32 (s.h + t.h)⟩

def initHash : Hash8 :=
  ⟨1779033703, 3144134277, 1013904242, 2773480762,
   1359893119, 2600822924, 528734635, 1541459225⟩

/-- The final SHA-256 state for the bytes of `s`. -/
def sha256Hash (s : String) : Hash8 :=
  (chunks64 (sha256Pad (strBytes s))).foldl compressChunk initHash

/-- Big-endian bytes of one 32-bit word. -/
def wordToBytes (w : Nat) : List Nat :=
  [w / 2 ^ 24 % 256, w / 2 ^ 16 % 256, w / 2 ^ 8 % 256, w % 256]

/-- The 32-byte SHA-256 digest of the bytes of `s`. -/
def digestBytes (s : String) : List Nat :=
  let h := sha256Hash s
  [h.a, h.b, h.c, h.d, h.e, h.f, h.g, h.h].flatMap wordToBytes

/-- The hex lookup table (Go encoding/hex `hextable`). -/
def hexChars : List Char := "0123456789abcdef".data

def hexDigit (n : Nat) : Char := hexChars.getD n '0'

/-- Two lowercase hex characters for one byte (Go encoding/hex). -/
def byteToHexChars (b : Nat) : List Char := [hexDigit (b / 16 % 16), hexDigit (b % 16)]

def hexEncode (bs : List Nat) : String := String.mk (bs.flatMap byteToHexChars)

/-- Embedding of `hashString` (main.go:47, part_000:44): lowercase-hex SHA-256. -/
def hashString (s : String) : String := hexEncode (digestBytes s)

/-! ## trimPath (embedding of filepath.Base / filepath.Ext / strings.TrimSuffix) -/

/-- Go `filepath.Base` on a slash-separated path, at the character level. -/
def baseChars (l : List Char) : List Char :=
  if l = [] then ['.']
  else
    let r := l.reverse.dropWhile (· = '/')
    if r = [] then ['/']
    else (r.takeWhile (· ≠ '/')).reverse

/-- Go `filepath.Ext`: the suffix from the last dot in the final path element. -/
def extChars (l : List Char) : List Char :=
  let rev := l.reverse
  let pre := rev.takeWhile (fun c => c ≠ '/' && c ≠ '.')
  match rev.drop pre.length with
  | '.' :: _ => '.' :: pre.reverse
  | _ => []

/-- Go `strings.TrimSuffix`. -/
def trimSuffixStr (s suf : String) : String :=
  if suf.data.isSuffixOf s.data then String.mk (s.data.take (s.data.length - suf.data.length))
  else s

/-- Embedding of `trimPath` (main.go:53, part_000:50). -/
def trimPath (s : String) : String :=
  let imgFileName := String.mk (baseChars s.data)
  trimSuffixStr imgFileName (String.mk (extChars imgFileName.data))

/-- The stored-filename derivation performed by both addItem variants
(main.go:110-122, part_000:95-99): hash the trimmed stem, append ".jpg". -/
def deriveFilename (s : String) : String := hashString (trimPath s) ++ ".jpg"

/-! ## Relational (SQLite) store: main.go handlers

The `items` table is `items(id INTEGER PRIMARY KEY, name, category,
image_filename)`; a row list models the table in rowid order. SQLite assigns
the next rowid as `max(existing rowid, 0) + 1` for an append-only table. -/

/-- A row of the `items` table. -/
structure DbItem where
  id : Int
  name : String
  category : String
  image_filename : String
  deriving Repr, DecidableEq

/-- SQLite rowid assignment for an INTEGER PRIMARY KEY insert without an
explicit id: one more than the largest existing rowid (1 on an empty table). -/
def nextRowId (db : List DbItem) : Int :=
  (db.foldl (fun m r => max m r.id) 0) + 1

/-- Embedding of `addItem` (main.go:103-130): derive the stored filename from
the `image` form value via trimPath + hashString + ".jpg", then INSERT the
(name, category, image_filename) row; SQLite assigns the id. -/
def addItemSql (db : List DbItem) (name category imagePath : String) : List DbItem :=
  let img := trimPath imagePath
  let hashImageName := hashString img
  db ++ [⟨nextRowId db, name, category, hashImageName ++ ".jpg"⟩]

/-- Embedding of `getAllItems` (main.go:132-162): SELECT * FROM items, rows
scanned in table order. -/
def getAllItemsSql (db : List DbItem) : List DbItem := db

/-- Embedding of Go `strconv.Atoi`: optional sign, at least one ASCII digit,
no other characters, 64-bit signed range. -/
def atoi (s : String) : Option Int :=
  match s.data with
  | [] => none
  | c :: rest =>
    let neg : Bool := c = '-'
    let digits : List Char := if c = '-' || c = '+' then rest else c :: rest
    if digits = [] then none
    else if digits.all (fun d => d.isDigit) then
      let v : Nat := digits.foldl (fun a d => a * 10 + (d.toNat - 48)) 0
      let i : Int := if neg then -(v : Int) else (v : Int)
      if -(2 ^ 63) ≤ i ∧ i ≤ 2 ^ 63 - 1 then some i else none
    else none

/-- Outcome of the `getItem` handler (main.go:164-199). `invalidInput` models
the early `return err` when `strconv.Atoi` rejects the id parameter (the
spec's InvalidInput error kind); `notFound` models the fixed 404
`{"message": "Not found"}` response when no row matches. -/
inductive GetItemResult where
  | invalidInput
  | ok (item : DbItem)
  | notFound
  deriving Repr, DecidableEq

/-- Embedding of `getItem` (main.go:164-199): parse the id parameter with
Atoi; on success SELECT the row WHERE id matches, returning the first row if
any and the "Not found" response otherwise. -/
def getItemSql (db : List DbItem) (idParam : String) : GetItemResult :=
  match atoi idParam with
  | none => .invalidInput
  | some n =>
    match db.find? (fun r => r.id == n) with
    | some r => .ok r
    | none => .notFound

/-! ## JSON layer (embedding of encoding/json as used on ItemWrapper)

`json.Unmarshal` is modelled by a small JSON parser plus the decoding rules
Go applies to the `ItemWrapper`/`Item` struct shape: unknown keys ignored,
ASCII-case-insensitive key match with the last occurrence winning, `null`
leaving the zero value, a type mismatch failing, a missing key leaving the
zero value, `null` decoding a slice to the nil (empty) slice. -/

/-- JSON values. Number values are irrelevant to the item data model (it is
all strings and arrays), so a number records only its integer part. -/
inductive Json where
  | null
  | bool (b : Bool)
  | num (n : Int)
  | str (s : String)
  | arr (xs : List Json)
  | obj (kvs : List (String × Json))
  deriving Repr

/-- JSON whitespace skipping. -/
def skipWs (l : List Char) : List Char :=
  l.dropWhile (fun c => c = ' ' || c = '\t' || c = '\n' || c = '\r')

def hexCharVal (c : Char) : Option Nat :=
  if '0' ≤ c && c ≤ '9' then some (c.toNat - 48)
  else if 'a' ≤ c && c ≤ 'f' then some (c.toNat - 87)
  else if 'A' ≤ c && c ≤ 'F' then some (c.toNat - 55)
  else none

/-- Parse a JSON string body after the opening quote, handling escapes. -/
def parseStringBody : List Char → Option (String × List Char)
  | [] => none
  | '"' :: rest => some ("", rest)
  | '\\' :: e :: rest =>
    match e with
    | '"' => (parseStringBody rest).map (fun p => (⟨'"' :: p.1.data⟩, p.2))
    | '\\' => (parseStringBody rest).map (fun p => (⟨'\\' :: p.1.data⟩, p.2))
    | '/' => (parseStringBody rest).map (fun p => (⟨'/' :: p.1.data⟩, p.2))
    | 'b' => (parseStringBody rest).map (fun p => (⟨'\x08' :: p.1.data⟩, p.2))
    | 'f' => (parseStringBody rest).map (fun p => (⟨'\x0c' :: p.1.data⟩, p.2))
    | 'n' => (parseStringBody rest).map (fun p => (⟨'\n' :: p.1.data⟩, p.2))
    | 'r' => (parseStringBody rest).map (fun p => (⟨'\r' :: p.1.data⟩, p.2))
    | 't' => (parseStringBody rest).map (fun p => (⟨'\t' :: p.1.data⟩, p.2))
    | 'u' =>
      match rest with
      | a :: b :: c :: d :: rest2 =>
        match hexCharVal a, hexCharVal b, hexCharVal c, hexCharVal d with
        | some va, some vb, some vc, some vd =>
          let n := ((va * 16 + vb) * 16 + vc) * 16 + vd
          let ch := if h : n.isValidChar then Char.ofNatAux n h else '�'
          (parseStringBody rest2).map (fun p => (⟨ch :: p.1.data⟩, p.2))
        | _, _, _, _ => none
      | _ => none
    | _ => none
  | c :: rest =>
    if c.toNat < 32 then none
    else (parseStringBody rest).map (fun p => (⟨c :: p.1.data⟩, p.2))

/-- Parse the digits/fraction/exponent tail of a JSON number; only the
leading integer part carries a value. -/
def parseNumberTail (l : List Char) : Option (Int × List Char) :=
  let digits := l.takeWhile (fun c => c.isDigit)
  if digits.isEmpty then none
  else
    let v : Nat := digits.foldl (fun a d => a * 10 + (d.toNat - 48)) 0
    let r1 : List Char := l.dropWhile (fun c => c.isDigit)
    let r2 : List Char :=
      match r1 with
      | '.' :: t =>
        if (t.takeWhile (fun c => c.isDigit)).isEmpty then r1
        else t.dropWhile (fun c => c.isDigit)
      | _ => r1
    let r3 : List Char :=
      match r2 with
      | 'e' :: t | 'E' :: t =>
        let t2 : List Char :=
          match t with
          | '+' :: u => u
          | '-' :: u => u
          | _ => t
        if (t2.takeWhile (fun c => c.isDigit)).isEmpty then r2
        else t2.dropWhile (fun c => c.isDigit)
      | _ => r2
    some ((v : Int), r3)

def parseNumber (l : List Char) : Option (Json × List Char) :=
  match l with
  | '-' :: rest => (parseNumberTail rest).map (fun p => (.num (-p.1), p.2))
  | _ => (parseNumberTail l).map (fun p => (.num p.1, p.2))

/-- Parse a comma-separated list of values up to `]`, given a value parser. -/
def parseElems (pv : List Char → Option (Json × List Char)) :
    Nat → List Char → Option (List Json × List Char)
  | 0, _ => none
  | fuel + 1, l =>
    match pv l with
    | none => none
    | some (v, r) =>
      match skipWs r with
      | ',' :: r2 => (parseElems pv fuel (skipWs r2)).map (fun p => (v :: p.1, p.2))
      | ']' :: r2 => some ([v], r2)
      | _ => none

/-- Parse a comma-separated list of `"key": value` members up to the closing
brace, given a value parser. -/
def parseMembers (pv : List Char → Option (Json × List Char)) :
    Nat → List Char → Option (List (String × Json) × List Char)
  | 0, _ => none
  | fuel + 1, l =>
    match l with
    | '"' :: r0 =>
      match parseStringBody r0 with
      | none => none
      | some (k, r1) =>
        match skipWs r1 with
        | ':' :: r2 =>
          match pv (skipWs r2) with
          | none => none
          | some (v, r3) =>
            match skipWs r3 with
            | ',' :: r4 => (parseMembers pv fuel (skipWs r4)).map (fun p => ((k, v) :: p.1, p.2))
            | '\x7d' :: r4 => some ([(k, v)], r4)
            | _ => none
        | _ => none
    | _ => none

/-- Parse one JSON value (fuel bounds the nesting/element count). -/
def parseValue : Nat → List Char → Option (Json × List Char)
  | 0, _ => none
  | fuel + 1, l =>
    match skipWs l with
    | 'n' :: 'u' :: 'l' :: 'l' :: rest => some (.null, rest)
    | 't' :: 'r' :: 'u' :: 'e' :: rest => some (.bool true, rest)
    | 'f' :: 'a' :: 'l' :: 's' :: 'e' :: rest => some (.bool false, rest)
    | '"' :: rest => (parseStringBody rest).map (fun p => (.str p.1, p.2))
    | '[' :: rest =>
      match skipWs rest with
      | ']' :: r2 => some (.arr [], r2)
      | r2 => (parseElems (parseValue fuel) fuel r2).map (fun p => (.arr p.1, p.2))
    | '\x7b' :: rest =>
      match skipWs rest with
      | '\x7d' :: r2 => some (.obj [], r2)
      | r2 => (parseMembers (parseValue fuel) fuel r2).map (fun p => (.obj p.1, p.2))
    | c :: rest =>
      if c = '-' || c.isDigit then parseNumber (c :: rest) else none
    | [] => none

/-- Parse a whole string as a single JSON document (Go `json.Unmarshal`
fails on leading garbage, trailing garbage and empty input). -/
def parseJson (s : String) : Option Json :=
  match parseValue (s.data.length + 1) s.data with
  | some (v, rest) => if skipWs rest = [] then some v else none
  | none => none

/-! ## ItemWrapper decode/encode (file-backed variant's persisted shape) -/

/-- The flat-file variant's `Item` struct (part_000:29-33): json-tagged
fields `name`, `category`, `img_filename`. -/
structure JItem where
  name : String
  category : String
  img_filename : String
  deriving Repr, DecidableEq

/-- The `ItemWrapper` struct: json-tagged field `items`. -/
structure ItemWrapper where
  items : List JItem
  deriving Repr, DecidableEq

def toLowerChar (c : Char) : Char :=
  if 'A' ≤ c && c ≤ 'Z' then Char.ofNat (c.toNat + 32) else c

/-- Go encoding/json key match: case-insensitive; the last matching object
member wins. -/
def lookupKey (kvs : List (String × Json)) (k : String) : Option Json :=
  kvs.foldl
    (fun acc kv => if kv.1.data.map toLowerChar == k.data.map toLowerChar then some kv.2 else acc)
    none

/-- Decode one string-typed struct field: a missing key or `null` leaves the
zero value; a non-string value is an unmarshalling type error. -/
def decodeStringField (kvs : List (String × Json)) (k : String) : Option String :=
  match lookupKey kvs k with
  | none => some ""
  | some (.str s) => some s
  | some .null => some ""
  | some _ => none

/-- Decode one item object (`null` leaves the zero-valued struct). -/
def decodeJItem : Json → Option JItem
  | .obj kvs => do
    let n ← decodeStringField kvs "name"
    let c ← decodeStringField kvs "category"
    let f ← decodeStringField kvs "img_filename"
    some ⟨n, c, f⟩
  | .null => some ⟨"", "", ""⟩
  | _ => none

/-- Decode the `items` slice: `null` is the nil slice. -/
def decodeItemList : Json → Option (List JItem)
  | .null => some []
  | .arr xs => xs.mapM decodeJItem
  | _ => none

/-- Embedding of `json.Unmarshal(data, &items)` for `ItemWrapper`. -/
def decodeItems (s : String) : Option ItemWrapper :=
  match parseJson s with
  | none => none
  | some (.obj kvs) =>
    match lookupKey kvs "items" with
    | none => some ⟨[]⟩
    | some v => (decodeItemList v).map (fun l => ⟨l⟩)
  | some .null => some ⟨[]⟩
  | some _ => none

/-- Go encoding/json string escaping (HTML-escaping encoder defaults). -/
def escapeChar (c : Char) : List Char :=
  if c = '"' then ['\\', '"']
  else if c = '\\' then ['\\', '\\']
  else if c = '<' then ['\\', 'u', '0', '0', '3', 'c']
  else if c = '>' then ['\\', 'u', '0', '0', '3', 'e']
  else if c = '&' then ['\\', 'u', '0', '0', '2', '6']
  else if c = '\n' then ['\\', 'n']
  else if c = '\r' then ['\\', 'r']
  else if c = '\t' then ['\\', 't']
  else if c.toNat < 32 then
    ['\\', 'u', '0', '0', hexDigit (c.toNat / 16), hexDigit (c.toNat % 16)]
  else if c.toNat = 0x2028 then ['\\', 'u', '2', '0', '2', '8']
  else if c.toNat = 0x2029 then ['\\', 'u', '2', '0', '2', '9']
  else [c]

def encodeJString (s : String) : List Char :=
  '"' :: s.data.flatMap escapeChar ++ ['"']

/-- `json.Marshal` of one item struct. -/
def marshalJItem (it : JItem) : List Char :=
  '\x7b' :: (encodeJString "name" ++ ':' :: encodeJString it.name ++
    ',' :: encodeJString "category" ++ ':' :: encodeJString it.category ++
    ',' :: encodeJString "img_filename" ++ ':' :: encodeJString it.img_filename) ++ ['\x7d']

/-- `json.Marshal` of the wrapper: a nil (empty) slice marshals to `null`,
otherwise to an array of item objects. -/
def marshalItems (w : ItemWrapper) : String :=
  let inner : List Char :=
    match w.items with
    | [] => ['n', 'u', 'l', 'l']
    | l => '[' :: List.intercalate [','] (l.map marshalJItem) ++ [']']
  ⟨'\x7b' :: (encodeJString "items" ++ ':' :: inner) ++ ['\x7d']⟩

/-! ## File-backed store (items.json) -/

/-- The state of the `items.json` backing file. -/
inductive FileState where
  | absent
  | present (content : String)
  deriving Repr, DecidableEq

/-- Why a file-backed read failed: `notExist` models the `os.ReadFile` error
for a missing file, `decodeFail` the `json.Unmarshal` error on data that will
not decode (the spec's CorruptStore kind). The two are distinct Go error
types (`*fs.PathError` vs a json error). -/
inductive ReadErr where
  | notExist
  | decodeFail
  deriving Repr, DecidableEq

deriving instance DecidableEq for Except

/-- Embedding of `readItemsFromFile` (part_000:56-67): a missing file is a
read error; otherwise the whole contents (including empty contents) go
through `json.Unmarshal`, whose failure is returned. -/
def readItemsFromFileP0 (fs : FileState) : Except ReadErr ItemWrapper :=
  match fs with
  | .absent => .error .notExist
  | .present data =>
    match decodeItems data with
    | some w => .ok w
    | none => .error .decodeFail

/-- Embedding of `readItemsFromFile` (main.go:59-82): a missing file is a
read error; empty contents skip decoding, write a marshalled empty wrapper
back, and return the zero-valued wrapper; otherwise `json.Unmarshal` decides.
Returns the resulting file state alongside the wrapper. -/
def readItemsFromFileMain (fs : FileState) : Except ReadErr (ItemWrapper × FileState) :=
  match fs with
  | .absent => .error .notExist
  | .present data =>
    if data = "" then .ok (⟨[]⟩, .present (marshalItems ⟨[]⟩))
    else
      match decodeItems data with
      | some w => .ok (w, .present data)
      | none => .error .decodeFail

/-- Embedding of `getAllItems` (part_000:125-132): read the file, turning a
read failure into the 500 error response. -/
def getAllItemsP0 (fs : FileState) : Except ReadErr ItemWrapper :=
  readItemsFromFileP0 fs

/-- Embedding of `addItem` (part_000:88-123): build the item with the derived
filename, read the current collection (failure → 500 error), append in
memory, and write the re-marshalled collection back. -/
def addItemP0 (fs : FileState) (name category imagePath : String) :
    Except ReadErr FileState :=
  let img := trimPath imagePath
  let hashImageName := hashString img
  let item : JItem := ⟨name, category, hashImageName ++ ".jpg"⟩
  match readItemsFromFileP0 fs with
  | .error e => .error e
  | .ok w => .ok (.present (marshalItems ⟨w.items ++ [item]⟩))

/-! ## Image resolver: getImg (main.go:201-214, part_000:134-147) -/

/-- Go `path.Clean`'s segment resolution: `st` is the output stack, reversed. -/
def cleanStack (rooted : Bool) : List String → List String → List String
  | st, [] => st
  | st, seg :: rest =>
    if seg = "" || seg = "." then cleanStack rooted st rest
    else if seg = ".." then
      match st with
      | top :: stTail =>
        if top = ".." then cleanStack rooted (".." :: top :: stTail) rest
        else cleanStack rooted stTail rest
      | [] => if rooted then cleanStack rooted [] rest else cleanStack rooted [".."] rest
    else cleanStack rooted (seg :: st) rest

/-- Split a character list at `/` separators (String.splitOn "/"). -/
def splitSlashAux : List Char → List Char → List String
  | acc, [] => [⟨acc.reverse⟩]
  | acc, c :: rest =>
    if c = '/' then ⟨acc.reverse⟩ :: splitSlashAux [] rest
    else splitSlashAux (c :: acc) rest

def splitSlash (s : String) : List String := splitSlashAux [] s.data

/-- Go `path.Clean`. -/
def cleanPath (p : String) : String :=
  if p = "" then "."
  else
    let rooted : Bool := decide (p.data.head? = some '/')
    let st := cleanStack rooted [] (splitSlash p)
    match st.reverse with
    | [] => if rooted then "/" else "."
    | segs => (if rooted then "/" else "") ++ String.intercalate "/" segs

/-- Go `path.Join` of two elements: join the non-empty elements with a slash
and clean the result ("" when both are empty). -/
def joinPath (a b : String) : String :=
  if a = "" && b = "" then ""
  else if a = "" then cleanPath b
  else if b = "" then cleanPath a
  else cleanPath (a ++ "/" ++ b)

/-- Go `strings.HasSuffix`. -/
def hasSuffixStr (s suf : String) : Bool := suf.data.isSuffixOf s.data

/-- Outcome of the `getImg` handler: the 400 response for a non-`.jpg`
candidate, or serving the file at a path. -/
inductive ImgResult where
  | badRequest
  | file (path : String)
  deriving Repr, DecidableEq

/-- Embedding of `getImg` (main.go:201-214, part_000:134-147): join the image
directory with the requested filename; reject candidates not ending in
`.jpg`; substitute `images/default.jpg` when `os.Stat` fails (the file is not
in the set `fsFiles` of existing paths); serve the resulting path. -/
def getImg (fsFiles : List String) (imageFilename : String) : ImgResult :=
  let imgPath := joinPath "images" imageFilename
  if !(hasSuffixStr imgPath ".jpg") then .badRequest
  else if fsFiles.contains imgPath then .file imgPath
  else .file (joinPath "images" "default.jpg")

/-! ## Sequential-append machinery (claim C7) -/

/-- Sequential appends through the SQLite `addItem` handler: each request is
(name, category, image reference). -/
def appendAll (db : List DbItem) (reqs : List (String × String × String)) : List DbItem :=
  reqs.foldl (fun d r => addItemSql d r.1 r.2.1 r.2.2) db

/-- The largest id in the table (0 when empty); `nextRowId db = maxId db + 1`. -/
def maxId (db : List DbItem) : Int := db.foldl (fun m r => max m r.id) 0

/-- The row that the `addItem` handler inserts as the `n`-th record. -/
def expectedRow (n : Nat) (r : String × String × String) : DbItem :=
  ⟨(n : Int), r.1, r.2.1, deriveFilename r.2.2⟩

/-- The rows produced by appending `reqs` after `n` existing records. -/
def buildExpected : List (String × String × String) → Nat → List DbItem
  | [], _ => []
  | r :: rest, n => expectedRow (n + 1) r :: buildExpected rest (n + 1)

end Catalog

namespace Catalog

/-! ## Validation of the embedding against known-answer vectors -/

theorem sha256_vector_mug :
    hashString "mug" = "a19ee2577879b76a5b98cb022b10b3e5c5d07122267089a0505cd9ca792d304f" := by decide

theorem sha256_vector_empty :
    hashString "" = "e3b0c44298fc1c149afbf4c8996fb92427ae41e4649b934ca495991b7852b855" := by decide

theorem sha256_vector_cat :
    hashString "cat" = "77af778b51abd4a3c51c5ddd97204a9c3ae614ebccb75a606c3b6865aed6744e" := by decide

theorem sha256_vector_cat_upper :
    hashString "Cat" = "48735c4fae42d1501164976afec76730b9e5fe467f680bdd8daff4bb77674045" := by decide

theorem trimPath_vectors :
    trimPath "/tmp/mug.jpg" = "mug" ∧ trimPath "" = "" ∧ trimPath "cat" = "cat" ∧
    trimPath "a/b/" = "b" ∧ trimPath ".hidden" = "" := by decide

theorem atoi_vectors :
    atoi "123" = some 123 ∧ atoi "-45" = some (-45) ∧ atoi "+7" = some 7 ∧
    atoi "" = none ∧ atoi "12a" = none ∧ atoi "-" = none ∧
    atoi "9223372036854775807" = some 9223372036854775807 ∧
    atoi "9223372036854775808" = none := by decide

theorem decodeItems_vectors :
    decodeItems "" = none ∧ decodeItems "\x7b" = none ∧
    decodeItems "\x7b\"items\":null\x7d" = some ⟨[]⟩ ∧
    decodeItems "\x7b\"items\":[\x7d" = none ∧
    decodeItems "\x7b\"Items\": [ \x7b \"name\" : \"x\" \x7d ] \x7d" = some ⟨[⟨"x", "", ""⟩]⟩ ∧
    decodeItems "\x7b\"items\":[\x7b\"name\":123\x7d]\x7d" = none := by decide

theorem marshalItems_vectors :
    marshalItems ⟨[]⟩ = "\x7b\"items\":null\x7d" ∧
    marshalItems ⟨[⟨"a", "b", "c.jpg"⟩]⟩ =
      "\x7b\"items\":[\x7b\"name\":\"a\",\"category\":\"b\",\"img_filename\":\"c.jpg\"\x7d]\x7d" ∧
    decodeItems (marshalItems ⟨[⟨"a", "b", "c.jpg"⟩]⟩) = some ⟨[⟨"a", "b", "c.jpg"⟩]⟩ := by decide

theorem joinPath_vectors :
    joinPath "images" "x.jpg" = "images/x.jpg" ∧
    joinPath "images" "../x.jpg" = "x.jpg" ∧
    joinPath "images" "" = "images" ∧
    joinPath "images" "a/../b.jpg" = "images/b.jpg" := by decide

theorem getImg_vectors :
    getImg ["images/a.jpg"] "a.jpg" = .file "images/a.jpg" := by decide

end Catalog

namespace Catalog

/-! ## Helper lemmas -/

theorem hexChars_length : hexChars.length = 16 := by decide

theorem hexDigit_mem (n : Nat) : hexDigit n ∈ hexChars := by
  unfold hexDigit
  rcases Nat.lt_or_ge n 16 with h | h
  · interval_cases n <;> decide
  · rw [List.getD_eq_default _ _ (by rw [hexChars_length]; omega)]
    decide

theorem length_flatMap_hex (bs : List Nat) :
    (bs.flatMap byteToHexChars).length = 2 * bs.length := by
  induction bs with
  | nil => simp
  | cons b t ih => simp [byteToHexChars, ih]; omega

theorem digestBytes_length (s : String) : (digestBytes s).length = 32 := rfl

theorem hashString_length (s : String) : (hashString s).length = 64 := by
  have h : (hashString s).length = ((digestBytes s).flatMap byteToHexChars).length := rfl
  rw [h, length_flatMap_hex, digestBytes_length]

theorem hashString_mem_hexChars (s : String) :
    ∀ c ∈ (hashString s).data, c ∈ hexChars := by
  intro c hc
  have : c ∈ (digestBytes s).flatMap byteToHexChars := hc
  rcases List.mem_flatMap.mp this with ⟨b, _, hb⟩
  simp only [byteToHexChars, List.mem_cons, List.not_mem_nil, or_false] at hb
  rcases hb with rfl | rfl
  · exact hexDigit_mem _
  · exact hexDigit_mem _

end Catalog

namespace Catalog

theorem nextRowId_eq_maxId (db : List DbItem) : nextRowId db = maxId db + 1 := rfl

theorem maxId_append (db : List DbItem) (x : DbItem) :
    maxId (db ++ [x]) = max (maxId db) x.id := by
  simp [maxId, List.foldl_append]

theorem addItemSql_eq (db : List DbItem) (r : String × String × String)
    (hdb : maxId db = (db.length : Int)) :
    addItemSql db r.1 r.2.1 r.2.2 = db ++ [expectedRow (db.length + 1) r] := by
  simp only [addItemSql, expectedRow, deriveFilename, nextRowId_eq_maxId, hdb]
  push_cast
  ring_nf

theorem appendAll_eq :
    ∀ (reqs : List (String × String × String)) (db : List DbItem),
      maxId db = (db.length : Int) →
      appendAll db reqs = db ++ buildExpected reqs db.length := by
  intro reqs
  induction reqs with
  | nil => intro db _; simp [appendAll, buildExpected]
  | cons r rest ih =>
    intro db hdb
    have step : addItemSql db r.1 r.2.1 r.2.2 = db ++ [expectedRow (db.length + 1) r] :=
      addItemSql_eq db r hdb
    have hlen : (db ++ [expectedRow (db.length + 1) r]).length = db.length + 1 := by simp
    have hmax : maxId (db ++ [expectedRow (db.length + 1) r]) =
        (((db ++ [expectedRow (db.length + 1) r]).length : Nat) : Int) := by
      rw [maxId_append, hdb, hlen]
      simp only [expectedRow]
      push_cast
      omega
    have h1 : appendAll db (r :: rest) = appendAll (db ++ [expectedRow (db.length + 1) r]) rest := by
      simp [appendAll, step]
    rw [h1, ih _ hmax, hlen]
    simp [buildExpected, List.append_assoc]

theorem buildExpected_length :
    ∀ (reqs : List (String × String × String)) (n : Nat),
      (buildExpected reqs n).length = reqs.length := by
  intro reqs
  induction reqs with
  | nil => intro n; rfl
  | cons r rest ih => intro n; simp [buildExpected, ih]

theorem buildExpected_getD :
    ∀ (reqs : List (String × String × String)) (n k : Nat), k < reqs.length →
      (buildExpected reqs n).getD k ⟨0, "", "", ""⟩ =
        expectedRow (n + k + 1) (reqs.getD k ("", "", "")) := by
  intro reqs
  induction reqs with
  | nil => intro n k hk; simp at hk
  | cons r rest ih =>
    intro n k hk
    cases k with
    | zero => simp [buildExpected]
    | succ k' =>
      have hk' : k' < rest.length := by simpa using hk
      have := ih (n + 1) k' hk'
      simp only [buildExpected, List.getD_cons_succ]
      rw [this]
      congr 1
      omega

theorem buildExpected_find? :
    ∀ (reqs : List (String × String × String)) (n k : Nat), k < reqs.length →
      (buildExpected reqs n).find? (fun r => r.id == ((n + k + 1 : Nat) : Int)) =
        some ((buildExpected reqs n).getD k ⟨0, "", "", ""⟩) := by
  intro reqs
  induction reqs with
  | nil => intro n k hk; simp at hk
  | cons r rest ih =>
    intro n k hk
    cases k with
    | zero =>
      simp [buildExpected, List.find?_cons, expectedRow]
    | succ k' =>
      have hk' : k' < rest.length := by simpa using hk
      have hne : (((n + 1 : Nat) : Int) == ((n + (k' + 1) + 1 : Nat) : Int)) = false := by
        simp only [beq_eq_false_iff_ne, ne_eq, Nat.cast_inj]
        omega
      simp only [buildExpected, List.find?_cons, expectedRow, List.getD_cons_succ]
      rw [hne]
      have := ih (n + 1) k' hk'
      have harith : ((n + 1) + k' + 1 : Nat) = (n + (k' + 1) + 1 : Nat) := by omega
      rw [harith] at this
      exact this

end Catalog

namespace Catalog

/-- C1: adding name="mug", category="kitchen", image="/tmp/mug.jpg" to an
empty store persists exactly one item whose image_filename is the
lowercase-hex SHA-256 of "mug" followed by ".jpg", with name "mug" and
category "kitchen", and GetById(1) returns that exact item. -/
theorem add_mug_scenario :
    addItemSql [] "mug" "kitchen" "/tmp/mug.jpg" =
      [⟨1, "mug", "kitchen",
        "a19ee2577879b76a5b98cb022b10b3e5c5d07122267089a0505cd9ca792d304f.jpg"⟩] ∧
    hashString "mug" = "a19ee2577879b76a5b98cb022b10b3e5c5d07122267089a0505cd9ca792d304f" ∧
    getItemSql (addItemSql [] "mug" "kitchen" "/tmp/mug.jpg") "1" =
      .ok ⟨1, "mug", "kitchen",
        "a19ee2577879b76a5b98cb022b10b3e5c5d07122267089a0505cd9ca792d304f.jpg"⟩ :=
  ⟨by decide, by decide, by decide⟩

/-- C2 counterexample: a nonexistent backing file makes ListAll fail in both
file-backed variants (and the part_000 variant fails on an empty file too),
refuting "empty or nonexistent backing store is not an error". -/
theorem empty_store_counterexample :
    getAllItemsP0 FileState.absent = .error .notExist ∧
    readItemsFromFileMain FileState.absent = .error .notExist ∧
    getAllItemsP0 (FileState.present "") = .error .decodeFail := by
  decide

/-- C2 amended: only the main.go file-backed reader treats an empty (but
existing) backing file as an empty collection, initializing the persisted
empty collection as it does so; a nonexistent backing file is a read error in
both variants, and the part_000 reader also errors on an empty file. -/
theorem empty_store_amended :
    readItemsFromFileMain (FileState.present "") =
      .ok (⟨[]⟩, FileState.present (marshalItems ⟨[]⟩)) ∧
    marshalItems ⟨[]⟩ = "\x7b\"items\":null\x7d" ∧
    readItemsFromFileP0 FileState.absent = .error .notExist ∧
    readItemsFromFileMain FileState.absent = .error .notExist ∧
    readItemsFromFileP0 (FileState.present "") = .error .decodeFail := by
  decide

/-- C3: the failing input for the validation contract — both addItem variants
accept an empty name (and empty category) and persist the record instead of
rejecting it with InvalidInput. -/
theorem add_item_accepts_empty_fields :
    addItemSql [] "" "kitchen" "/tmp/mug.jpg" =
      [⟨1, "", "kitchen",
        "a19ee2577879b76a5b98cb022b10b3e5c5d07122267089a0505cd9ca792d304f.jpg"⟩] ∧
    addItemP0 (FileState.present (marshalItems ⟨[]⟩)) "" "" "/tmp/mug.jpg" =
      .ok (FileState.present (marshalItems
        ⟨[⟨"", "",
           "a19ee2577879b76a5b98cb022b10b3e5c5d07122267089a0505cd9ca792d304f.jpg"⟩]⟩)) :=
  ⟨by decide, by decide⟩

/-- C5: a backing file whose contents are present but do not decode makes
every file-backed read fail with the decode error (the CorruptStore kind,
distinct from the missing-file error), never an empty-looking collection. -/
theorem corrupt_store_fails (data : String) (hne : data ≠ "")
    (hdec : decodeItems data = none) :
    readItemsFromFileP0 (.present data) = .error .decodeFail ∧
    readItemsFromFileMain (.present data) = .error .decodeFail ∧
    getAllItemsP0 (.present data) = .error .decodeFail ∧
    (∀ w, getAllItemsP0 (.present data) ≠ .ok w) ∧
    ReadErr.decodeFail ≠ ReadErr.notExist := by
  refine ⟨?_, ?_, ?_, ?_, by decide⟩
  · simp [readItemsFromFileP0, hdec]
  · simp [readItemsFromFileMain, hne, hdec]
  · simp [getAllItemsP0, readItemsFromFileP0, hdec]
  · intro w
    simp [getAllItemsP0, readItemsFromFileP0, hdec]

/-- C5 witness: the truncated document "\x7b" is nonempty, fails to decode,
and makes the file-backed reads fail with the decode error. -/
theorem corrupt_store_fails_witness :
    readItemsFromFileP0 (.present "\x7b") = .error .decodeFail ∧
    readItemsFromFileMain (.present "\x7b") = .error .decodeFail :=
  ⟨(corrupt_store_fails "\x7b" (by decide) (by decide)).1,
   (corrupt_store_fails "\x7b" (by decide) (by decide)).2.1⟩

/-- C6: the image resolver rejects with the 400 response any candidate path
not ending in ".jpg"; a ".jpg" candidate that does not exist on the
filesystem is silently replaced by the fixed placeholder images/default.jpg,
which is served without an error outcome. -/
theorem img_resolver_contract (fsFiles : List String) (name : String) :
    (hasSuffixStr (joinPath "images" name) ".jpg" = false →
      getImg fsFiles name = .badRequest) ∧
    (hasSuffixStr (joinPath "images" name) ".jpg" = true →
      fsFiles.contains (joinPath "images" name) = false →
      getImg fsFiles name = .file "images/default.jpg") := by
  constructor
  · intro h
    simp [getImg, h]
  · intro h hc
    have hdef : joinPath "images" "default.jpg" = "images/default.jpg" := by decide
    have hc' : joinPath "images" name ∉ fsFiles := by simpa using hc
    simp [getImg, h, hc', hdef]

/-- C6 witness: "x.png" is rejected with the 400 response; "missing.jpg" on
an empty filesystem resolves to the default placeholder path. -/
theorem img_resolver_contract_witness :
    getImg [] "x.png" = .badRequest ∧
    getImg [] "missing.jpg" = .file "images/default.jpg" :=
  ⟨(img_resolver_contract [] "x.png").1 (by decide),
   (img_resolver_contract [] "missing.jpg").2 (by decide) (by decide)⟩

/-- C8: the derived filename depends only on the final path segment with its
extension stripped — "/a/b/cat.png" and "/x/cat.jpg" both derive from the
stem "cat" and agree, while "cat" and "Cat" derive different filenames. -/
theorem derive_stem_only :
    deriveFilename "/a/b/cat.png" = deriveFilename "/x/cat.jpg" ∧
    trimPath "/a/b/cat.png" = "cat" ∧ trimPath "/x/cat.jpg" = "cat" ∧
    deriveFilename "cat" ≠ deriveFilename "Cat" := by
  have h1 : trimPath "/a/b/cat.png" = "cat" := by decide
  have h2 : trimPath "/x/cat.jpg" = "cat" := by decide
  refine ⟨?_, h1, h2, ?_⟩
  · unfold deriveFilename
    rw [h1, h2]
  · decide

end Catalog

namespace Catalog

theorem getItemSql_ok (db : List DbItem) (s : String) (n : Int) (r : DbItem)
    (hs : atoi s = some n) (hf : db.find? (fun x => x.id == n) = some r) :
    getItemSql db s = .ok r := by
  simp [getItemSql, hs, hf]

/-- C4: an id string rejected by Atoi makes getItem fail with the
InvalidInput outcome, never NotFound; the NotFound outcome occurs only for an
id string that parses to a number matching no record. -/
theorem get_item_error_kinds (db : List DbItem) (s : String) :
    (atoi s = none → getItemSql db s = .invalidInput) ∧
    (getItemSql db s = .notFound → ∃ n, atoi s = some n ∧ ∀ r ∈ db, r.id ≠ n) ∧
    GetItemResult.invalidInput ≠ GetItemResult.notFound := by
  refine ⟨?_, ?_, by decide⟩
  · intro h
    simp [getItemSql, h]
  · intro h
    cases ha : atoi s with
    | none => simp [getItemSql, ha] at h
    | some n =>
      refine ⟨n, rfl, ?_⟩
      cases hf : db.find? (fun r => r.id == n) with
      | some r => simp [getItemSql, ha, hf] at h
      | none =>
        intro r hr
        have := List.find?_eq_none.mp hf r hr
        simpa using this

/-- C4 witness: the non-numeric id "abc" fails Atoi and yields the
InvalidInput outcome on the empty table. -/
theorem get_item_error_kinds_witness :
    atoi "abc" = none ∧ getItemSql [] "abc" = .invalidInput :=
  ⟨by decide, (get_item_error_kinds [] "abc").1 (by decide)⟩

/-- C7: after appending a sequence of requests to an empty relational store,
the table holds exactly that many rows, ListAll returns them in append order
with ids 1..N carrying each request's fields and derived filename, and GetById
on each assigned id (any id string parsing to it) returns that same row. -/
theorem append_monotonicity (reqs : List (String × String × String)) :
    (appendAll [] reqs).length = reqs.length ∧
    getAllItemsSql (appendAll [] reqs) = appendAll [] reqs ∧
    ∀ k, k < reqs.length →
      (appendAll [] reqs).getD k ⟨0, "", "", ""⟩ =
        ⟨((k + 1 : Nat) : Int), (reqs.getD k ("", "", "")).1,
         (reqs.getD k ("", "", "")).2.1,
         deriveFilename (reqs.getD k ("", "", "")).2.2⟩ ∧
      ∀ s, atoi s = some ((k + 1 : Nat) : Int) →
        getItemSql (appendAll [] reqs) s =
          .ok ((appendAll [] reqs).getD k ⟨0, "", "", ""⟩) := by
  have hbase : appendAll [] reqs = buildExpected reqs 0 := by
    have h := appendAll_eq reqs [] (by simp [maxId])
    simpa using h
  refine ⟨?_, rfl, ?_⟩
  · rw [hbase, buildExpected_length]
  · intro k hk
    constructor
    · rw [hbase, buildExpected_getD reqs 0 k hk]
      simp [expectedRow]
    · intro s hs
      rw [hbase]
      have hf := buildExpected_find? reqs 0 k hk
      simp only [Nat.zero_add] at hf
      rw [← hbase] at hf ⊢
      exact getItemSql_ok _ s _ _ hs hf

/-- C7 witness: one append of ("a", "b", "c.jpg") gives a one-row table, and
GetById via the id string "1" returns that row. -/
theorem append_monotonicity_witness :
    (appendAll [] [("a", "b", "c.jpg")]).length = 1 ∧
    getItemSql (appendAll [] [("a", "b", "c.jpg")]) "1" =
      .ok ((appendAll [] [("a", "b", "c.jpg")]).getD 0 ⟨0, "", "", ""⟩) :=
  ⟨(append_monotonicity [("a", "b", "c.jpg")]).1,
   ((append_monotonicity [("a", "b", "c.jpg")]).2.2 0 (by decide)).2 "1" (by decide)⟩

/-- C9: the filename derivation is total on every input string: it always
produces the hex digest of the (possibly empty or garbage) stem followed by
".jpg", the digest being 64 characters drawn from the lowercase hex
alphabet. -/
theorem derive_total_shape (s : String) :
    deriveFilename s = hashString (trimPath s) ++ ".jpg" ∧
    (hashString (trimPath s)).length = 64 ∧
    ∀ c ∈ (hashString (trimPath s)).data, c ∈ hexChars :=
  ⟨rfl, hashString_length _, hashString_mem_hexChars _⟩

/-- C9 witness: the empty reference also derives the digest-plus-".jpg" shape
(the digest of the empty stem), with a 64-character digest. -/
theorem derive_total_shape_witness :
    deriveFilename "" = hashString (trimPath "") ++ ".jpg" ∧
    (hashString (trimPath "")).length = 64 ∧
    deriveFilename "" =
      "e3b0c44298fc1c149afbf4c8996fb92427ae41e4649b934ca495991b7852b855.jpg" :=
  ⟨(derive_total_shape "").1, (derive_total_shape "").2.1, by decide⟩

/-- C10: every record created by the add path, in both backends and for every
caller-supplied image reference, stores an image_filename that is a
64-character lowercase-hex digest followed by ".jpg"; the caller's reference
never reaches the stored filename directly. -/
theorem stored_filename_invariant (db : List DbItem) (name category imagePath : String)
    (fs : FileState) (w : ItemWrapper) (hread : readItemsFromFileP0 fs = .ok w) :
    ∃ hx : String, hx.length = 64 ∧ (∀ c ∈ hx.data, c ∈ hexChars) ∧
      addItemSql db name category imagePath =
        db ++ [⟨nextRowId db, name, category, hx ++ ".jpg"⟩] ∧
      addItemP0 fs name category imagePath =
        .ok (.present (marshalItems ⟨w.items ++ [⟨name, category, hx ++ ".jpg"⟩]⟩)) := by
  refine ⟨hashString (trimPath imagePath), hashString_length _, hashString_mem_hexChars _,
    rfl, ?_⟩
  simp [addItemP0, hread]

/-- C10 witness: instantiated at a concrete add against both an empty table
and an initialized empty file store. -/
theorem stored_filename_invariant_witness :
    ∃ hx : String, hx.length = 64 ∧ (∀ c ∈ hx.data, c ∈ hexChars) ∧
      addItemSql [] "a" "b" "c.jpg" =
        [] ++ [⟨nextRowId [], "a", "b", hx ++ ".jpg"⟩] ∧
      addItemP0 (FileState.present (marshalItems ⟨[]⟩)) "a" "b" "c.jpg" =
        .ok (.present (marshalItems ⟨[] ++ [⟨"a", "b", hx ++ ".jpg"⟩]⟩)) :=
  stored_filename_invariant [] "a" "b" "c.jpg"
    (FileState.present (marshalItems ⟨[]⟩)) ⟨[]⟩ (by decide)

end Catalog
